import Mathlib

/-!
# Loadstone core: shallow embedding and verification

This file embeds the core components of the Loadstone wiki/profile CLI client
(cache store, HTTP-JSON fetcher, wiki content parser, profile API client) as
executable Lean definitions, and proves or refutes the specified properties.

Conventions of the embedding:
* JavaScript runtime values that flow through the untyped parts of the code
  (JSON request/response bodies, parsed cache entries) are modelled by the
  inductive type `Json`.  The extra constructor `Json.undef` models the
  JavaScript value `undefined` as produced by an absent-field access; a value
  produced by `JSON.parse` never contains it.
* JSON numbers are modelled as integers (`Int`); every numeric value the
  verified properties touch (timestamps, TTLs, levels, ids) is integral.
* The filesystem visible to the cache store is a finite association list from
  path to file content; a file's content is either a parsed JSON value
  (`FileData.json`, modelling a read plus a successful `JSON.parse`) or
  `FileData.junk` (content on which `JSON.parse` throws).
* `fetch` and SHA-256 are external primitives; they enter the model as
  components of an explicit environment (`FetchEnv`).  Performed network
  requests are logged in the world state (`FetchWorld.fetchLog`) so that
  "no network call happens" is a provable frame property.
-/

namespace Loadstone

/-- Model of a JavaScript/JSON runtime value.  `undef` models the JavaScript
value `undefined` (absent-field access); `JSON.parse` output never contains it.
Numbers are modelled as integers. -/
inductive Json where
  | null : Json
  | undef : Json
  | bool (b : Bool) : Json
  | num (n : Int) : Json
  | str (s : String) : Json
  | arr (elems : List Json) : Json
  | obj (fields : List (String × Json)) : Json

/-- JavaScript truthiness of a modelled value: `null`, `undefined`, `false`,
`0` and the empty string are falsy; every object and array is truthy. -/
def jsTruthy : Json → Bool
  | Json.null => false
  | Json.undef => false
  | Json.bool b => b
  | Json.num n => n != 0
  | Json.str s => s != ""
  | Json.arr _ => true
  | Json.obj _ => true

/-- JavaScript property access `v[key]` on a modelled value: field lookup on an
object, `undefined` otherwise (and `undefined` for an absent field).  The
fields list of an `obj` is the already-collapsed field map of the object. -/
def getField (v : Json) (key : String) : Json :=
  match v with
  | Json.obj fields =>
      match fields.lookup key with
      | some w => w
      | none => Json.undef
  | _ => Json.undef

/-- JavaScript string coercion of a modelled value, as used for property keys
and template-string interpolation.  Array/object coercions are rough
placeholders; the verified properties only coerce numbers. -/
def jsStr : Json → String
  | Json.null => "null"
  | Json.undef => "undefined"
  | Json.bool b => if b then "true" else "false"
  | Json.num n => toString n
  | Json.str s => s
  | Json.arr _ => ""
  | Json.obj _ => "[object Object]"

/-! ## Cache store (file `cache.ts`)

The filesystem is an association list from path to `FileData`. -/

/-- Content of a file as seen through `readFile` + `JSON.parse`:
either a successfully parsed JSON value, or content on which `JSON.parse`
throws (`junk`). -/
inductive FileData where
  | json (j : Json) : FileData
  | junk : FileData

/-- Lookup of a file by path (`none` models ENOENT on read). -/
def lookupFile (files : List (String × FileData)) (p : String) : Option FileData :=
  files.lookup p

/-- `fs.rm(path, { force: true })`: remove the entry at `p`, if any. -/
def removeFile (files : List (String × FileData)) (p : String) :
    List (String × FileData) :=
  files.filter (fun kv => kv.fst ≠ p)

/-- `fs.writeFile(path, content)`: overwrite or create the entry at `p`. -/
def writeFile (files : List (String × FileData)) (p : String) (d : FileData) :
    List (String × FileData) :=
  if (files.lookup p).isSome then
    files.map (fun kv => if kv.fst = p then (p, d) else kv)
  else
    files ++ [(p, d)]

/-- `CacheOptions` from the source: all fields optional. -/
structure CacheOptions where
  enabled : Option Bool := none
  ttlMs : Option Int := none
  dir : Option String := none

/-- `ResolvedCacheOptions` from the source. -/
structure ResolvedCacheOptions where
  enabled : Bool
  ttlMs : Int
  dir : String

/-- `DEFAULT_TTL_MS = 24 * 60 * 60 * 1000`. -/
def DEFAULT_TTL_MS : Int := 24 * 60 * 60 * 1000

/-- JavaScript `String.prototype.trim` on the character list: leading and
trailing whitespace removed. -/
def jsTrimList (l : List Char) : List Char :=
  ((l.dropWhile Char.isWhitespace).reverse.dropWhile Char.isWhitespace).reverse

/-- JavaScript `String.prototype.trim`. -/
def jsTrim (s : String) : String :=
  String.mk (jsTrimList s.data)

/-- Remove the pattern as a prefix, returning the remainder (or `none` when
it is not a prefix). -/
def dropPre : List Char → List Char → Option (List Char)
  | [], l => some l
  | _ :: _, [] => none
  | p :: ps, c :: cs => if p = c then dropPre ps cs else none

/-- Replace every (non-overlapping, leftmost-first) occurrence of `p` by `r`,
as JavaScript `.replace(/pattern/g, r)` does for a literal pattern.  The fuel
argument (instantiated with the list length) only makes the recursion
structural; with a non-empty pattern every step consumes at least one input
character, so the fuel never runs out. -/
def replaceAllAux (p r : List Char) : Nat → List Char → List Char
  | 0, l => l
  | _ + 1, [] => []
  | fuel + 1, c :: rest =>
      match dropPre p (c :: rest) with
      | some rem => r ++ replaceAllAux p r fuel rem
      | none => c :: replaceAllAux p r fuel rest

/-- JavaScript `.replace(/p/g, r)` for a literal pattern `p`. -/
def replaceAll (s p r : String) : String :=
  String.mk (replaceAllAux p.data r.data s.data.length s.data)

/-- The numeric value of a digit run (`none` when a non-digit occurs). -/
def digitsVal : Nat → List Char → Option Nat
  | acc, [] => some acc
  | acc, c :: cs => if c.isDigit then digitsVal (acc * 10 + (c.toNat - 48)) cs else none

/-- A signed decimal integer numeral (`none` when malformed). -/
def parseIntChars : List Char → Option Int
  | [] => none
  | '-' :: cs => if cs.isEmpty then none else (digitsVal 0 cs).map (fun n => -(n : Int))
  | '+' :: cs => if cs.isEmpty then none else (digitsVal 0 cs).map (fun n => (n : Int))
  | cs => (digitsVal 0 cs).map (fun n => (n : Int))

/-- Model of JavaScript `Number(s)` restricted to the integer fragment:
surrounding whitespace is ignored, a whitespace-only or empty string coerces
to `0`, a (signed) decimal integer numeral to its value, and anything else
(in particular every non-integral or malformed numeral) to `none`,
standing for a non-finite result (`NaN`). -/
def jsNumber (s : String) : Option Int :=
  let t := jsTrim s
  if t = "" then some 0 else parseIntChars t.data

/-- `parsePositiveNumber` from the source: `undefined` on an absent or empty
(falsy) string, else `Number(value)` kept only when finite and positive. -/
def parsePositiveNumber (value : Option String) : Option Int :=
  match value with
  | none => none
  | some v =>
      if v = "" then none
      else
        match jsNumber v with
        | some parsed => if parsed > 0 then some parsed else none
        | none => none

/-- `resolveCacheOptions` from the source.  `env` is the process environment
(`process.env`), `homedir` the result of `os.homedir()`.  Note the source
consults the environment for `ttlMs` (`LOADSTONE_CACHE_TTL_MS`, then
`LOADSTONE_CACHE_TTL_HOURS` converted to milliseconds) and for `dir`
(`LOADSTONE_CACHE_DIR`), but not for `enabled`. -/
def resolveCacheOptions (env : String → Option String) (homedir : String)
    (options : Option CacheOptions) : ResolvedCacheOptions :=
  let envTtlMs := parsePositiveNumber (env "LOADSTONE_CACHE_TTL_MS")
  let envTtlHours := parsePositiveNumber (env "LOADSTONE_CACHE_TTL_HOURS")
  let envDir := env "LOADSTONE_CACHE_DIR"
  let ttlMs : Int :=
    match options.bind (fun o => o.ttlMs) with
    | some v => v
    | none =>
        match envTtlMs with
        | some v => v
        | none =>
            match envTtlHours with
            | some h => h * 60 * 60 * 1000
            | none => DEFAULT_TTL_MS
  let dir : String :=
    match options.bind (fun o => o.dir) with
    | some d => d
    | none =>
        match envDir with
        | some d => d
        | none => homedir ++ "/.loadstone/cache"
  let enabled : Bool :=
    match options.bind (fun o => o.enabled) with
    | some b => b
    | none => true
  { enabled := enabled, ttlMs := ttlMs, dir := dir }

/-- A `RequestInit` body, with the serialisations `buildCacheKey` uses
already attached to each shape: a raw string, a `URLSearchParams` carrying
its `toString`, an `ArrayBuffer` carrying its base64 encoding, or any other
non-null value carrying its `JSON.stringify` result (`jsonLike`) or, when
stringification throws, its `String(...)` coercion (`coerced`). -/
inductive ReqBody where
  | str (s : String) : ReqBody
  | urlParams (q : String) : ReqBody
  | bytes (b64 : String) : ReqBody
  | jsonLike (s : String) : ReqBody
  | coerced (s : String) : ReqBody

/-- The slice of `RequestInit` that `buildCacheKey` inspects. -/
structure FetchOpts where
  method : Option String := none
  body : Option ReqBody := none

/-- The derived cache key of `buildCacheKey`: method, URL and serialised
body joined with colons (method defaulting to `GET`, upper-cased). -/
def buildCacheKeyDerived (url : String) (fetchOptions : Option FetchOpts) : String :=
  let method : String :=
    match fetchOptions.bind (fun o => o.method) with
    | some m => m.toUpper
    | none => "GET"
  let bodyKey : String :=
    match fetchOptions.bind (fun o => o.body) with
    | none => ""
    | some (ReqBody.str s) => s
    | some (ReqBody.urlParams q) => q
    | some (ReqBody.bytes b64) => b64
    | some (ReqBody.jsonLike s) => s
    | some (ReqBody.coerced s) => s
  method ++ ":" ++ url ++ ":" ++ bodyKey

/-- `buildCacheKey` from the source: an explicit (truthy, i.e. non-empty)
cache key wins; otherwise the key is derived from method, URL and body. -/
def buildCacheKey (url : String) (fetchOptions : Option FetchOpts)
    (cacheKey : Option String) : String :=
  match cacheKey with
  | some k =>
      if k ≠ "" then k
      else buildCacheKeyDerived url fetchOptions
  | none => buildCacheKeyDerived url fetchOptions

/-- `readCacheEntry` from the source, with `Date.now()` passed as `now` and
the filesystem threaded explicitly.  The returned `Json` is the value of the
TypeScript `T | null` result, `Json.null` being the miss signal; the returned
list is the filesystem after the call.
* absent file: read throws, caught — miss, filesystem untouched;
* `junk` content: `JSON.parse` throws, caught — miss, filesystem untouched;
* parsed value falsy or without a numeric `storedAt`: file deleted, miss;
* entry older than `ttlMs`: file deleted, miss;
* otherwise: the entry's `body` field is returned, filesystem untouched. -/
def readCacheEntry (filePath : String) (ttlMs : Int) (now : Int)
    (files : List (String × FileData)) : Json × List (String × FileData) :=
  match lookupFile files filePath with
  | none => (Json.null, files)
  | some FileData.junk => (Json.null, files)
  | some (FileData.json entry) =>
      if jsTruthy entry = false then (Json.null, removeFile files filePath)
      else
        match getField entry "storedAt" with
        | Json.num storedAt =>
            let ageMs := now - storedAt
            if ageMs > ttlMs then (Json.null, removeFile files filePath)
            else (getField entry "body", files)
        | _ => (Json.null, removeFile files filePath)

/-- The JSON value `writeCacheEntry` materialises at the entry's path:
`{ storedAt: now, body }`. -/
def cacheEntryJson (now : Int) (body : Json) : Json :=
  Json.obj [("storedAt", Json.num now), ("body", body)]

/-- A fetched response, as far as `fetchJsonWithCache` and the profile client
observe it: `ok` status flag, status text, and the value `.json()` resolves
to. -/
structure JsResponse where
  ok : Bool
  statusText : String
  body : Json

/-- The mutable world `fetchJsonWithCache` acts on: the cache filesystem, two
fault flags for the best-effort write path (`fs.mkdir` / `fs.writeFile`
throwing), and a log of the URLs fetched from the network, in order. -/
structure FetchWorld where
  files : List (String × FileData)
  mkdirFails : Bool := false
  writeFails : Bool := false
  fetchLog : List String := []

/-- The ambient environment of `fetchJsonWithCache`: the process environment,
the user's home directory, the current clock (`Date.now()`), the SHA-256 hex
digest primitive (uninterpreted), and the network (`fetch` composed with
`.json()`, assumed to resolve). -/
structure FetchEnv where
  envVars : String → Option String
  homedir : String
  now : Int
  sha256 : String → String
  net : String → JsResponse

/-- `FetchJsonWithCacheOptions` from the source. -/
structure FetchJsonOpts where
  cache : Option CacheOptions := none
  fetchOptions : Option FetchOpts := none
  cacheKey : Option String := none

/-- The cache file path `fetchJsonWithCache` derives:
`path.join(dir, hashKey(cacheKey) + ".json")`. -/
def cachePathOf (env : FetchEnv) (url : String) (opts : FetchJsonOpts) : String :=
  let resolved := resolveCacheOptions env.envVars env.homedir opts.cache
  resolved.dir ++ "/" ++ env.sha256 (buildCacheKey url opts.fetchOptions opts.cacheKey) ++ ".json"

/-- `fetchJsonWithCache` from the source.  Returns the function's result
(`Except.error` models a thrown `Error` with its message) together with the
world after the call.
* caching disabled: plain fetch, throw on non-OK, no cache interaction;
* cache hit (read result not strictly equal to `null`): return it, no fetch;
* otherwise fetch, throw on non-OK, then best-effort write of
  `{storedAt: now, body}` — a directory-creation or write fault is swallowed
  and the fetched body is returned regardless. -/
def fetchJsonWithCache (env : FetchEnv) (url : String) (opts : FetchJsonOpts)
    (w : FetchWorld) : Except String Json × FetchWorld :=
  let resolved := resolveCacheOptions env.envVars env.homedir opts.cache
  if resolved.enabled = false then
    let resp := env.net url
    let w1 := { w with fetchLog := w.fetchLog ++ [url] }
    if resp.ok = false then
      (Except.error ("Request failed: " ++ resp.statusText), w1)
    else
      (Except.ok resp.body, w1)
  else
    let cachePath := cachePathOf env url opts
    let (cached, files1) := readCacheEntry cachePath resolved.ttlMs env.now w.files
    let w1 := { w with files := files1 }
    match cached with
    | Json.null =>
        let resp := env.net url
        let w2 := { w1 with fetchLog := w1.fetchLog ++ [url] }
        if resp.ok = false then
          (Except.error ("Request failed: " ++ resp.statusText), w2)
        else
          let data := resp.body
          let w3 :=
            if w2.mkdirFails || w2.writeFails then w2
            else { w2 with files := writeFile w2.files cachePath (FileData.json (cacheEntryJson env.now data)) }
          (Except.ok data, w3)
    | c => (Except.ok c, w1)

/-! ## Profile API client (file `index.ts`, `getRSProfile`) -/

/-- `SKILL_NAMES` from the source.  The TypeScript record literal has numeric
keys `0 … 28`; at runtime a JavaScript record's keys are the corresponding
strings, and indexing `SKILL_NAMES[sv.id]` coerces `sv.id` to a string first,
so the table is modelled keyed by those strings. -/
def SKILL_NAMES : List (String × String) :=
  [("0", "Attack"), ("1", "Defence"), ("2", "Strength"), ("3", "Constitution"),
   ("4", "Ranged"), ("5", "Prayer"), ("6", "Magic"), ("7", "Cooking"),
   ("8", "Woodcutting"), ("9", "Fletching"), ("10", "Fishing"),
   ("11", "Firemaking"), ("12", "Crafting"), ("13", "Smithing"),
   ("14", "Mining"), ("15", "Herblore"), ("16", "Agility"), ("17", "Thieving"),
   ("18", "Slayer"), ("19", "Farming"), ("20", "Runecrafting"),
   ("21", "Hunter"), ("22", "Construction"), ("23", "Summoning"),
   ("24", "Dungeoneering"), ("25", "Divination"), ("26", "Invention"),
   ("27", "Archaeology"), ("28", "Necromancy")]

/-- The skill name `getRSProfile` derives for one skill value row:
the table entry for the row's `id` (string-coerced), or the synthetic
placeholder when the lookup misses (`SKILL_NAMES[sv.id]` is `undefined`,
hence falsy). -/
def skillNameFor (sv : Json) : String :=
  let k := jsStr (getField sv "id")
  match SKILL_NAMES.lookup k with
  | some name => name
  | none => "Unknown(" ++ k ++ ")"

/-- JavaScript record assignment `record[name] = value`: overwrite in place
when the key exists (keeping its original position), append otherwise. -/
def recordAssign {α : Type} (record : List (String × α)) (name : String) (value : α) :
    List (String × α) :=
  if (record.lookup name).isSome then
    record.map (fun kv => if kv.fst = name then (name, value) else kv)
  else
    record ++ [(name, value)]

/-- The `skills` record `getRSProfile` builds from `profileData.skillvalues`:
one assignment `skills[name] = sv.level` per row, in order. -/
def buildSkills (svs : List Json) : List (String × Json) :=
  svs.foldl (fun acc sv => recordAssign acc (skillNameFor sv) (getField sv "level")) []

/-- One quest record as passed through by `getRSProfile` (exactly four
fields, each the corresponding field of the source object, unvalidated). -/
structure RSQuest where
  title : Json
  status : Json
  questPoints : Json
  members : Json

/-- `RSProfile` from the source.  Field values are unvalidated JavaScript
values read off the response body. -/
structure RSProfile where
  name : Json
  combatLevel : Json
  totalSkill : Json
  totalXp : Json
  questsComplete : Json
  questsStarted : Json
  questsNotStarted : Json
  skills : List (String × Json)
  quests : List RSQuest
  raw : Json

/-- `getRSProfile` from the source, as a function of the two already-fetched
responses (the profile/stats response and the quests response; the source
issues the two `fetch` calls in parallel and awaits both).  `none` models the
`null` return: it covers a non-OK stats response (the thrown error is caught
by the surrounding `try`), a truthy `error` field in the stats body, and the
runtime throw when `profileData.skillvalues` is not an array (`.forEach` on a
non-array) or `questsData.quests` is truthy but not an array (`.map`).  A
non-OK quests response is tolerated: `questsData` is replaced by
`{ quests: [] }`. -/
def getRSProfile (profileRes questsRes : JsResponse) : Option RSProfile :=
  if profileRes.ok = false then none
  else
    let profileData := profileRes.body
    if jsTruthy (getField profileData "error") then none
    else
      let questsData : Json :=
        if questsRes.ok then questsRes.body else Json.obj [("quests", Json.arr [])]
      match getField profileData "skillvalues" with
      | Json.arr svs =>
          let skills := buildSkills svs
          let questsVal := getField questsData "quests"
          let questsSrc : Json := if jsTruthy questsVal then questsVal else Json.arr []
          match questsSrc with
          | Json.arr qs =>
              some
                { name := getField profileData "name"
                  combatLevel := getField profileData "combatlevel"
                  totalSkill := getField profileData "totalskill"
                  totalXp := getField profileData "totalxp"
                  questsComplete := getField profileData "questscomplete"
                  questsStarted := getField profileData "questsstarted"
                  questsNotStarted := getField profileData "questsnotstarted"
                  skills := skills
                  quests := qs.map (fun q =>
                    { title := getField q "title"
                      status := getField q "status"
                      questPoints := getField q "questPoints"
                      members := getField q "members" })
                  raw := profileData }
          | _ => none
      | _ => none

/-! ## Wiki content parser (file `index.ts`, `parseWikiContent`)

`parseWikiContent` receives an HTML string and immediately parses it with
cheerio (an external DOM library); all of its own logic operates on the
resulting node tree.  The embedding therefore takes the parsed document — a
forest of nodes, each an element (tag, class list, children) or a text node
(with entities already decoded, as cheerio's `.text()` reports them). -/

/-- A parsed HTML node: an element with tag name, class list and children, or
a text node carrying its (entity-decoded) character data. -/
inductive HNode where
  | text (s : String) : HNode
  | elem (tag : String) (classes : List String) (children : List HNode) : HNode

/-- Whether a node is matched by one of the six removal selectors of the
pre-clean phase: `style`, `script`, `noscript` (by tag), `.navbox`,
`.mw-editsection`, `.magnify` (by class). -/
def isNoiseNode : HNode → Bool
  | HNode.text _ => false
  | HNode.elem tag classes _ =>
      tag == "style" || tag == "script" || tag == "noscript" ||
      classes.contains "navbox" || classes.contains "mw-editsection" ||
      classes.contains "magnify"

mutual

/-- The pre-clean phase on one node: a node matched by a removal selector is
dropped with its whole subtree, any other node is kept with its children
cleaned. -/
def cleanNode : HNode → List HNode
  | HNode.text s => [HNode.text s]
  | HNode.elem tag cls ch =>
      if isNoiseNode (HNode.elem tag cls ch) then []
      else [HNode.elem tag cls (cleanNodes ch)]

/-- The pre-clean phase: every node matched by a removal selector is removed
together with its subtree, at every depth. -/
def cleanNodes : List HNode → List HNode
  | [] => []
  | n :: rest => cleanNode n ++ cleanNodes rest

end

mutual

/-- cheerio `.text()` of a single node: the concatenated character data of
its text-node descendants, in document order. -/
def nodeText : HNode → String
  | HNode.text s => s
  | HNode.elem _ _ ch => textOfNodes ch

/-- cheerio `.text()` over a node list. -/
def textOfNodes : List HNode → String
  | [] => ""
  | n :: rest => nodeText n ++ textOfNodes rest

end

mutual

/-- cheerio `.find` inside one node: the matching elements of its subtree
(the node itself included), in document order. -/
def findInNode (p : String → List String → Bool) : HNode → List HNode
  | HNode.text _ => []
  | HNode.elem tag cls ch =>
      (if p tag cls then [HNode.elem tag cls ch] else []) ++ findElems p ch

/-- cheerio `.find` over a forest: every element (at any depth, in document
order) whose tag and class list satisfy the predicate. -/
def findElems (p : String → List String → Bool) : List HNode → List HNode
  | [] => []
  | n :: rest => findInNode p n ++ findElems p rest

end

/-- The element nodes of a list (cheerio `.children()` yields elements only,
never text nodes). -/
def elemsOnly (ns : List HNode) : List HNode :=
  ns.filter fun n =>
    match n with
    | HNode.elem _ _ _ => true
    | HNode.text _ => false

/-- The direct children of a node. -/
def childrenOf (n : HNode) : List HNode :=
  match n with
  | HNode.elem _ _ ch => ch
  | HNode.text _ => []

/-- `node.is(tag)`. -/
def isTag (t : String) (n : HNode) : Bool :=
  match n with
  | HNode.elem tag _ _ => tag == t
  | HNode.text _ => false

/-- `.replace(/\s+/g, " ")` on the character list: each maximal whitespace
run becomes a single space.  The flag records whether the previous character
belonged to a whitespace run already squashed. -/
def collapseWsAux : Bool → List Char → List Char
  | _, [] => []
  | inRun, c :: rest =>
      if c.isWhitespace then
        if inRun then collapseWsAux true rest
        else ' ' :: collapseWsAux true rest
      else c :: collapseWsAux false rest

/-- `.replace(/\s+/g, " ")` on a string. -/
def collapseWs (s : String) : String :=
  String.mk (collapseWsAux false s.data)

/-- Heading text with edit-link suffixes stripped:
`.text().replace(/ \[edit \| edit source\]/g, "").replace(/ \[edit\]/g, "").trim()`. -/
def headingText (n : HNode) : String :=
  jsTrim (replaceAll (replaceAll (nodeText n) " [edit | edit source]" "") " [edit]" "")

/-- Table rendering: a leading newline, then one line per `tr` descendant
that has at least one `th`/`td` descendant cell — the cells' texts (trimmed,
whitespace-collapsed) joined with a pipe delimiter. -/
def tableText (n : HNode) : String :=
  let trs := findElems (fun tag _ => tag == "tr") (childrenOf n)
  trs.foldl
    (fun acc tr =>
      let cells := findElems (fun tag _ => tag == "th" || tag == "td") (childrenOf tr)
      let row := cells.map (fun c => collapseWs (jsTrim (nodeText c)))
      if row.length > 0 then acc ++ String.intercalate " | " row ++ "\n" else acc)
    "\n"

/-- List rendering: a leading newline, then one bulleted line per direct `li`
child, the item's text trimmed. -/
def listText (n : HNode) : String :=
  let lis := (childrenOf n).filter (isTag "li")
  lis.foldl (fun acc li => acc ++ "• " ++ jsTrim (nodeText li) ++ "\n") "\n"

/-- The `getText` helper of `parseWikiContent`: tables and lists get their
special renderings, every other node contributes its trimmed text. -/
def getText (n : HNode) : String :=
  if isTag "table" n then tableText n
  else if isTag "ul" n || isTag "ol" n then listText n
  else jsTrim (nodeText n)

/-- The traversal state of `parseWikiContent`: the current section name, the
accumulated content lines of the current section, and the section record
built so far. -/
structure ParseState where
  currentSection : String
  currentContent : List String
  sections : List (String × String)

/-- Saving the current section: when content lines were accumulated and their
joined, trimmed text is non-empty, assign it to the current section name. -/
def flushSection (st : ParseState) : List (String × String) :=
  if st.currentContent.length > 0 then
    if jsTrim (String.intercalate "\n" st.currentContent) ≠ "" then
      recordAssign st.sections st.currentSection
        (jsTrim (String.intercalate "\n" st.currentContent))
    else st.sections
  else st.sections

/-- One step of the traversal over a root child: an `h2` flushes the current
section and opens a new one named by its stripped heading text; an `h3`/`h4`
contributes a marked sub-heading line; anything else contributes its
`getText` when non-empty. -/
def parseStep (st : ParseState) (n : HNode) : ParseState :=
  if isTag "h2" n then
    { currentSection := headingText n, currentContent := [], sections := flushSection st }
  else if isTag "h3" n || isTag "h4" n then
    { st with currentContent := st.currentContent ++ ["\n=== " ++ headingText n ++ " ==="] }
  else
    if getText n ≠ "" then { st with currentContent := st.currentContent ++ [getText n] }
    else st

/-- Root selection: the children of the `.mw-parser-output` elements when the
selector matches anything, else the top level of the document. -/
def selectRootChildren (ns : List HNode) : List HNode :=
  if (findElems (fun _ cls => cls.contains "mw-parser-output") ns).length > 0 then
    (findElems (fun _ cls => cls.contains "mw-parser-output") ns).foldr
      (fun r acc => childrenOf r ++ acc) []
  else ns

/-- `parseWikiContent` from the source, over the parsed document: pre-clean,
select the root, traverse its element children accumulating sections (the
leading buffer named `Summary`), and flush the last section. -/
def parseWikiContent (html : List HNode) : List (String × String) :=
  flushSection
    ((elemsOnly (selectRootChildren (cleanNodes html))).foldl parseStep
      { currentSection := "Summary", currentContent := [], sections := [] })

mutual

/-- Whether the node or any of its descendants is an element with the given
tag. -/
def nodeHasTag (t : String) : HNode → Bool
  | HNode.text _ => false
  | HNode.elem tag _ ch => tag == t || forestHasTag t ch

/-- Whether any element of the forest (at any depth) carries the given tag. -/
def forestHasTag (t : String) : List HNode → Bool
  | [] => false
  | n :: rest => nodeHasTag t n || forestHasTag t rest

end

mutual

/-- Whether the subtree rooted at the node is free of removal-selector
matches. -/
def nodeNoNoise : HNode → Bool
  | HNode.text _ => true
  | HNode.elem tag cls ch =>
      !(isNoiseNode (HNode.elem tag cls ch)) && noNoiseForest ch

/-- Whether the forest is free of removal-selector matches at every depth. -/
def noNoiseForest : List HNode → Bool
  | [] => true
  | n :: rest => nodeNoNoise n && noNoiseForest rest

end

/-- Whether `n` occurs in `h` as a contiguous sublist. -/
def subListOf (n : List Char) : List Char → Bool
  | [] => n.isEmpty
  | c :: rest => n.isPrefixOf (c :: rest) || subListOf n rest

/-- Whether the string `n` occurs in `h` as a substring. -/
def strContainsSub (h n : String) : Bool :=
  subListOf n.data h.data

/-! ## Theorems -/

/-- C3: a cache entry stored at time `T` under TTL `ttlMs` is a hit at
`T + ttlMs - 1`, returning the stored body and leaving the filesystem
untouched, and a miss at `T + ttlMs + 1`, which also deletes the entry's
file.  Expiry is decided only inside this read (the model has no other
transition touching the store). -/
theorem C3_ttl_boundary (files : List (String × FileData)) (p : String)
    (ttlMs T : Int) (fields : List (String × Json))
    (hfile : lookupFile files p = some (FileData.json (Json.obj fields)))
    (hstored : getField (Json.obj fields) "storedAt" = Json.num T) :
    readCacheEntry p ttlMs (T + ttlMs - 1) files
      = (getField (Json.obj fields) "body", files) ∧
    readCacheEntry p ttlMs (T + ttlMs + 1) files
      = (Json.null, removeFile files p) := by
  constructor
  · simp only [readCacheEntry, hfile, hstored, jsTruthy]
    rw [if_neg, if_neg]
    · omega
    · simp
  · simp only [readCacheEntry, hfile, hstored, jsTruthy]
    rw [if_neg, if_pos]
    · omega
    · simp

/-- C3 witness: boundary behaviour at a concrete entry stored at time 100
with TTL 50. -/
theorem C3_ttl_boundary_witness :
    readCacheEntry "p" 50 149
        [("p", FileData.json (Json.obj [("storedAt", Json.num 100), ("body", Json.str "x")]))]
      = (Json.str "x",
         [("p", FileData.json (Json.obj [("storedAt", Json.num 100), ("body", Json.str "x")]))]) ∧
    readCacheEntry "p" 50 151
        [("p", FileData.json (Json.obj [("storedAt", Json.num 100), ("body", Json.str "x")]))]
      = (Json.null, []) := by
  have h := C3_ttl_boundary
    [("p", FileData.json (Json.obj [("storedAt", Json.num 100), ("body", Json.str "x")]))]
    "p" 50 100 [("storedAt", Json.num 100), ("body", Json.str "x")] (by rfl) (by rfl)
  exact ⟨h.1, h.2⟩

/-- C5 counterexample: a cache entry file that exists but is unparseable
(`JSON.parse` throws) yields a miss, yet the file is NOT deleted — it is
still present, unchanged, after the read.  This refutes the claim that every
malformed entry file is deleted: the `try`/`catch` around the read swallows
the parse error before the deletion logic runs. -/
theorem C5_counterexample :
    readCacheEntry "p" 100 0 [("p", FileData.junk)]
        = (Json.null, [("p", FileData.junk)]) ∧
    lookupFile (readCacheEntry "p" 100 0 [("p", FileData.junk)]).2 "p"
        = some FileData.junk := by
  exact ⟨rfl, rfl⟩

/-- C5 amended: a malformed cache entry always reads as a miss; the entry
file is deleted when its content parses but is falsy or lacks a numeric
`storedAt` field, while an unreadable/unparseable file is left in place. -/
theorem C5_malformed_is_miss (files : List (String × FileData)) (p : String)
    (ttlMs now : Int) :
    (lookupFile files p = some FileData.junk →
      readCacheEntry p ttlMs now files = (Json.null, files)) ∧
    (∀ j, lookupFile files p = some (FileData.json j) →
      (jsTruthy j = false ∨ ∀ n : Int, getField j "storedAt" ≠ Json.num n) →
      readCacheEntry p ttlMs now files = (Json.null, removeFile files p)) := by
  constructor
  · intro h
    simp only [readCacheEntry, h]
  · intro j hj hbad
    rcases hbad with hfalsy | hnonum
    · simp only [readCacheEntry, hj, hfalsy, if_pos]
    · rcases htruthy : jsTruthy j with _ | _
      · simp only [readCacheEntry, hj, htruthy, if_pos]
      · simp only [readCacheEntry, hj, htruthy]
        rcases hsa : getField j "storedAt" with _ | _ | b | n | s | es | fs <;>
          simp_all

/-- C5 amended witness: a junk file at a concrete path is a miss and
survives; a parsed entry without a numeric `storedAt` is a miss and is
deleted. -/
theorem C5_malformed_is_miss_witness :
    readCacheEntry "p" 100 0 [("p", FileData.junk), ("q", FileData.junk)]
        = (Json.null, [("p", FileData.junk), ("q", FileData.junk)]) ∧
    readCacheEntry "q" 100 0 [("q", FileData.json (Json.obj [("body", Json.num 3)]))]
        = (Json.null, []) := by
  refine ⟨(C5_malformed_is_miss _ "p" 100 0).1 rfl, ?_⟩
  have h := (C5_malformed_is_miss [("q", FileData.json (Json.obj [("body", Json.num 3)]))]
    "q" 100 0).2 (Json.obj [("body", Json.num 3)]) rfl
    (Or.inr fun n h => Json.noConfusion h)
  exact h

/-- C4 counterexample: the `enabled` flag has NO environment-variable step.
In an environment where every variable is set (to `"false"`, and in the
second conjunct to `"0"`) and no explicit option is given, the resolved
`enabled` flag is still `true`: the code reads `options?.enabled ?? true`
and never consults the environment, refuting the claimed
explicit > environment > default precedence for `enabled`. -/
theorem C4_counterexample :
    (resolveCacheOptions (fun _ => some "false") "/home/u" none).enabled = true ∧
    (resolveCacheOptions (fun _ => some "0") "/home/u" none).enabled = true := by
  exact ⟨rfl, rfl⟩

/-- C4 amended: `ttlMs` and `dir` follow the precedence explicit per-call
option > environment variable > hardcoded default (with the hour-denominated
`LOADSTONE_CACHE_TTL_HOURS` converted to milliseconds, and the millisecond
variable taking precedence over it); the default TTL is 24 hours in
milliseconds and the default directory `<home>/.loadstone/cache`.  `enabled`
follows explicit option > default `true`, with no environment step. -/
theorem C4_resolution_precedence (env : String → Option String) (home : String)
    (o : CacheOptions) :
    (∀ v, o.ttlMs = some v →
       (resolveCacheOptions env home (some o)).ttlMs = v) ∧
    (∀ m, o.ttlMs = none →
       parsePositiveNumber (env "LOADSTONE_CACHE_TTL_MS") = some m →
       (resolveCacheOptions env home (some o)).ttlMs = m) ∧
    (∀ h, o.ttlMs = none →
       parsePositiveNumber (env "LOADSTONE_CACHE_TTL_MS") = none →
       parsePositiveNumber (env "LOADSTONE_CACHE_TTL_HOURS") = some h →
       (resolveCacheOptions env home (some o)).ttlMs = h * 3600000) ∧
    (o.ttlMs = none →
       parsePositiveNumber (env "LOADSTONE_CACHE_TTL_MS") = none →
       parsePositiveNumber (env "LOADSTONE_CACHE_TTL_HOURS") = none →
       (resolveCacheOptions env home (some o)).ttlMs = 86400000) ∧
    (∀ d, o.dir = some d →
       (resolveCacheOptions env home (some o)).dir = d) ∧
    (∀ d, o.dir = none → env "LOADSTONE_CACHE_DIR" = some d →
       (resolveCacheOptions env home (some o)).dir = d) ∧
    (o.dir = none → env "LOADSTONE_CACHE_DIR" = none →
       (resolveCacheOptions env home (some o)).dir = home ++ "/.loadstone/cache") ∧
    (∀ b, o.enabled = some b →
       (resolveCacheOptions env home (some o)).enabled = b) ∧
    (o.enabled = none →
       (resolveCacheOptions env home (some o)).enabled = true) := by
  refine ⟨?_, ?_, ?_, ?_, ?_, ?_, ?_, ?_, ?_⟩
  · intro v hv; simp [resolveCacheOptions, hv]
  · intro m h0 h1; simp [resolveCacheOptions, h0, h1]
  · intro h h0 h1 h2; simp [resolveCacheOptions, h0, h1, h2]; ring
  · intro h0 h1 h2; simp [resolveCacheOptions, h0, h1, h2, DEFAULT_TTL_MS]
  · intro d hd; simp [resolveCacheOptions, hd]
  · intro d h0 h1; simp [resolveCacheOptions, h0, h1]
  · intro h0 h1; simp [resolveCacheOptions, h0, h1]
  · intro b hb; simp [resolveCacheOptions, hb]
  · intro h0; simp [resolveCacheOptions, h0]

/-- C4 amended witness: with no explicit TTL, an unset millisecond variable
and `LOADSTONE_CACHE_TTL_HOURS=2`, the resolved TTL is 7 200 000 ms; `dir`
and `enabled` take their defaults. -/
theorem C4_resolution_precedence_witness :
    (resolveCacheOptions
        (fun k => if k = "LOADSTONE_CACHE_TTL_HOURS" then some "2" else none)
        "/home/u" (some {})).ttlMs = 7200000 ∧
    (resolveCacheOptions
        (fun k => if k = "LOADSTONE_CACHE_TTL_HOURS" then some "2" else none)
        "/home/u" (some {})).dir = "/home/u/.loadstone/cache" ∧
    (resolveCacheOptions
        (fun k => if k = "LOADSTONE_CACHE_TTL_HOURS" then some "2" else none)
        "/home/u" (some {})).enabled = true := by
  have h := C4_resolution_precedence
    (fun k => if k = "LOADSTONE_CACHE_TTL_HOURS" then some "2" else none)
    "/home/u" {}
  refine ⟨?_, ?_, ?_⟩
  · have := h.2.2.1 2 rfl rfl (by rfl)
    simpa using this
  · exact h.2.2.2.2.2.2.1 rfl rfl
  · exact h.2.2.2.2.2.2.2.2 rfl

/-- C9: whenever caching is enabled, the cache read yields the miss signal
(for any reason — absent file, junk content, invalid entry, expired entry or
a stored `null` body), the network request succeeds, and the
cache-directory creation or the entry write fails, the call still returns
the parsed response body: the world after the call holds the read's
resulting filesystem (at most the read's own lazy deletion, never a write)
and the logged fetch, and no error propagates. -/
theorem C9_write_failure_swallowed (env : FetchEnv) (url : String)
    (opts : FetchJsonOpts) (w : FetchWorld)
    (henabled : (resolveCacheOptions env.envVars env.homedir opts.cache).enabled = true)
    (hmiss : (readCacheEntry (cachePathOf env url opts)
        (resolveCacheOptions env.envVars env.homedir opts.cache).ttlMs env.now w.files).1
      = Json.null)
    (hok : (env.net url).ok = true)
    (hfail : (w.mkdirFails || w.writeFails) = true) :
    fetchJsonWithCache env url opts w =
      (Except.ok (env.net url).body,
       { w with
           files := (readCacheEntry (cachePathOf env url opts)
             (resolveCacheOptions env.envVars env.homedir opts.cache).ttlMs
             env.now w.files).2,
           fetchLog := w.fetchLog ++ [url] }) := by
  rcases hread : readCacheEntry (cachePathOf env url opts)
      (resolveCacheOptions env.envVars env.homedir opts.cache).ttlMs env.now w.files
    with ⟨cached, files1⟩
  have hc : cached = Json.null := by rw [hread] at hmiss; exact hmiss
  subst hc
  simp only [fetchJsonWithCache, henabled, Bool.true_eq_false, if_false, hread,
    hok, hfail, if_true]

/-- C9 witness: a stale cache entry (stored at time 0, read far beyond the
default TTL) on a world whose directory creation fails: the read misses and
lazily deletes the stale file, no entry is written, and the fetched body is
still returned. -/
theorem C9_write_failure_swallowed_witness :
    fetchJsonWithCache
        { envVars := fun _ => none, homedir := "/h", now := 1000000000,
          sha256 := fun s => s,
          net := fun _ => { ok := true, statusText := "OK", body := Json.num 7 } }
        "https://example.test" { cacheKey := some "k" }
        { files := [("/h/.loadstone/cache/k.json",
            FileData.json (Json.obj [("storedAt", Json.num 0), ("body", Json.str "old")]))],
          mkdirFails := true, writeFails := false, fetchLog := [] } =
      (Except.ok (Json.num 7),
       { files := [], mkdirFails := true, writeFails := false,
         fetchLog := ["https://example.test"] }) := by
  exact C9_write_failure_swallowed
    { envVars := fun _ => none, homedir := "/h", now := 1000000000,
      sha256 := fun s => s,
      net := fun _ => { ok := true, statusText := "OK", body := Json.num 7 } }
    "https://example.test" { cacheKey := some "k" }
    { files := [("/h/.loadstone/cache/k.json",
        FileData.json (Json.obj [("storedAt", Json.num 0), ("body", Json.str "old")]))],
      mkdirFails := true, writeFails := false, fetchLog := [] }
    rfl rfl rfl rfl

/-- C1 counterexample: a fresh, well-formed cache entry whose stored body is
the JSON value `null`.  The claim says the stored body is returned with no
network request; instead the call fetches from the network (the fetch log
grows) and returns the network body, because the read path's `null` result
is indistinguishable from a miss.  The entry here is stored at the current
clock (age 0, within the default 24 h TTL) at exactly the derived cache
path. -/
theorem C1_counterexample :
    (fetchJsonWithCache
        { envVars := fun _ => none, homedir := "/h", now := 1000,
          sha256 := fun s => s,
          net := fun _ => { ok := true, statusText := "OK", body := Json.num 7 } }
        "u" { cacheKey := some "k" }
        { files := [("/h/.loadstone/cache/k.json",
            FileData.json (Json.obj [("storedAt", Json.num 1000), ("body", Json.null)]))],
          mkdirFails := true, writeFails := true, fetchLog := [] }).2.fetchLog = ["u"] ∧
    (fetchJsonWithCache
        { envVars := fun _ => none, homedir := "/h", now := 1000,
          sha256 := fun s => s,
          net := fun _ => { ok := true, statusText := "OK", body := Json.num 7 } }
        "u" { cacheKey := some "k" }
        { files := [("/h/.loadstone/cache/k.json",
            FileData.json (Json.obj [("storedAt", Json.num 1000), ("body", Json.null)]))],
          mkdirFails := true, writeFails := true, fetchLog := [] }).1 =
      Except.ok (Json.num 7) := by
  exact ⟨rfl, rfl⟩

/-- C1 amended: with caching enabled, a cache file at the derived (or
explicit) key that parses as a valid entry (numeric `storedAt`) whose age is
within the TTL, and whose stored body is not the JSON value `null`, makes
`fetchJsonWithCache` return the stored body and leave the world — including
the fetch log, so the network — completely untouched. -/
theorem C1_cache_hit_no_network (env : FetchEnv) (url : String)
    (opts : FetchJsonOpts) (w : FetchWorld) (fields : List (String × Json)) (t : Int)
    (henabled : (resolveCacheOptions env.envVars env.homedir opts.cache).enabled = true)
    (hfile : lookupFile w.files (cachePathOf env url opts)
      = some (FileData.json (Json.obj fields)))
    (hstored : getField (Json.obj fields) "storedAt" = Json.num t)
    (hfresh : env.now - t ≤ (resolveCacheOptions env.envVars env.homedir opts.cache).ttlMs)
    (hbody : getField (Json.obj fields) "body" ≠ Json.null) :
    fetchJsonWithCache env url opts w
      = (Except.ok (getField (Json.obj fields) "body"), w) := by
  have hread : readCacheEntry (cachePathOf env url opts)
      (resolveCacheOptions env.envVars env.homedir opts.cache).ttlMs env.now w.files
      = (getField (Json.obj fields) "body", w.files) := by
    simp only [readCacheEntry, hfile, hstored, jsTruthy]
    rw [if_neg (by simp), if_neg (by omega)]
  simp only [fetchJsonWithCache, henabled, Bool.true_eq_false, if_false, hread]

/-- C1 amended witness: a fresh entry with stored body `"cached"` is served
without touching the network. -/
theorem C1_cache_hit_no_network_witness :
    fetchJsonWithCache
        { envVars := fun _ => none, homedir := "/h", now := 1000,
          sha256 := fun s => s,
          net := fun _ => { ok := true, statusText := "OK", body := Json.num 7 } }
        "u" { cacheKey := some "k" }
        { files := [("/h/.loadstone/cache/k.json",
            FileData.json (Json.obj [("storedAt", Json.num 1000), ("body", Json.str "cached")]))],
          mkdirFails := false, writeFails := false, fetchLog := [] } =
      (Except.ok (Json.str "cached"),
       { files := [("/h/.loadstone/cache/k.json",
           FileData.json (Json.obj [("storedAt", Json.num 1000), ("body", Json.str "cached")]))],
         mkdirFails := false, writeFails := false, fetchLog := [] }) := by
  exact C1_cache_hit_no_network
    { envVars := fun _ => none, homedir := "/h", now := 1000,
      sha256 := fun s => s,
      net := fun _ => { ok := true, statusText := "OK", body := Json.num 7 } }
    "u" { cacheKey := some "k" }
    { files := [("/h/.loadstone/cache/k.json",
        FileData.json (Json.obj [("storedAt", Json.num 1000), ("body", Json.str "cached")]))],
      mkdirFails := false, writeFails := false, fetchLog := [] }
    [("storedAt", Json.num 1000), ("body", Json.str "cached")] 1000
    rfl rfl rfl (by decide) (fun h => Json.noConfusion h)

/-- C10: a fresh, well-formed cache entry whose stored body is the JSON
value `null` behaves exactly like a miss: the read path returns `Json.null`,
the very value that signals a miss (the TypeScript result type is
`T | null`), so `fetchJsonWithCache` performs a network request (the fetch
log grows by the URL) and returns the network body — a cached `null` body is
never served from the cache. -/
theorem C10_cached_null_is_miss (env : FetchEnv) (url : String)
    (opts : FetchJsonOpts) (w : FetchWorld) (fields : List (String × Json)) (t : Int)
    (henabled : (resolveCacheOptions env.envVars env.homedir opts.cache).enabled = true)
    (hfile : lookupFile w.files (cachePathOf env url opts)
      = some (FileData.json (Json.obj fields)))
    (hstored : getField (Json.obj fields) "storedAt" = Json.num t)
    (hfresh : env.now - t ≤ (resolveCacheOptions env.envVars env.homedir opts.cache).ttlMs)
    (hbody : getField (Json.obj fields) "body" = Json.null)
    (hok : (env.net url).ok = true) :
    (readCacheEntry (cachePathOf env url opts)
        (resolveCacheOptions env.envVars env.homedir opts.cache).ttlMs env.now w.files).1
      = Json.null ∧
    (fetchJsonWithCache env url opts w).1 = Except.ok (env.net url).body ∧
    (fetchJsonWithCache env url opts w).2.fetchLog = w.fetchLog ++ [url] := by
  have hread : readCacheEntry (cachePathOf env url opts)
      (resolveCacheOptions env.envVars env.homedir opts.cache).ttlMs env.now w.files
      = (Json.null, w.files) := by
    simp only [readCacheEntry, hfile, hstored, jsTruthy]
    rw [if_neg (by simp), if_neg (by omega), hbody]
  refine ⟨by rw [hread], ?_, ?_⟩
  · simp only [fetchJsonWithCache, henabled, Bool.true_eq_false, if_false, hread,
      hok, if_true]
  · simp only [fetchJsonWithCache, henabled, Bool.true_eq_false, if_false, hread,
      hok, if_true]
    split <;> rfl

/-- C10 witness: the concrete null-body entry from the C1 counterexample
state, with a distinct URL, is read as a miss and triggers the network. -/
theorem C10_cached_null_is_miss_witness :
    (readCacheEntry "/h/.loadstone/cache/k2.json" 86400000 1000
        [("/h/.loadstone/cache/k2.json",
          FileData.json (Json.obj [("storedAt", Json.num 1000), ("body", Json.null)]))]).1
      = Json.null ∧
    (fetchJsonWithCache
        { envVars := fun _ => none, homedir := "/h", now := 1000,
          sha256 := fun s => s,
          net := fun _ => { ok := true, statusText := "OK", body := Json.num 9 } }
        "u2" { cacheKey := some "k2" }
        { files := [("/h/.loadstone/cache/k2.json",
            FileData.json (Json.obj [("storedAt", Json.num 1000), ("body", Json.null)]))],
          mkdirFails := false, writeFails := false, fetchLog := [] }).1 =
      Except.ok (Json.num 9) ∧
    (fetchJsonWithCache
        { envVars := fun _ => none, homedir := "/h", now := 1000,
          sha256 := fun s => s,
          net := fun _ => { ok := true, statusText := "OK", body := Json.num 9 } }
        "u2" { cacheKey := some "k2" }
        { files := [("/h/.loadstone/cache/k2.json",
            FileData.json (Json.obj [("storedAt", Json.num 1000), ("body", Json.null)]))],
          mkdirFails := false, writeFails := false, fetchLog := [] }).2.fetchLog = ["u2"] := by
  exact C10_cached_null_is_miss
    { envVars := fun _ => none, homedir := "/h", now := 1000,
      sha256 := fun s => s,
      net := fun _ => { ok := true, statusText := "OK", body := Json.num 9 } }
    "u2" { cacheKey := some "k2" }
    { files := [("/h/.loadstone/cache/k2.json",
        FileData.json (Json.obj [("storedAt", Json.num 1000), ("body", Json.null)]))],
      mkdirFails := false, writeFails := false, fetchLog := [] }
    [("storedAt", Json.num 1000), ("body", Json.null)] 1000
    rfl rfl rfl (by decide) rfl rfl

/-- C6: when the stats response is OK, carries no (truthy) `error` field and
has its documented `skillvalues` array, but the quests response is non-OK,
`getRSProfile` still returns a profile whose `quests` is the empty list and
whose stats fields are each populated from the stats body; when the stats
response is non-OK, or its body carries a truthy `error` field, the result
is `null`.  In every case the embedded function is total and returns
`Option RSProfile` — nothing is raised to the caller. -/
theorem C6_profile_degradation (pr qr : JsResponse) (svs : List Json) :
    (pr.ok = true →
      jsTruthy (getField pr.body "error") = false →
      getField pr.body "skillvalues" = Json.arr svs →
      qr.ok = false →
      ∃ p : RSProfile, getRSProfile pr qr = some p ∧
        p.quests = [] ∧
        p.name = getField pr.body "name" ∧
        p.combatLevel = getField pr.body "combatlevel" ∧
        p.totalSkill = getField pr.body "totalskill" ∧
        p.totalXp = getField pr.body "totalxp" ∧
        p.questsComplete = getField pr.body "questscomplete" ∧
        p.questsStarted = getField pr.body "questsstarted" ∧
        p.questsNotStarted = getField pr.body "questsnotstarted" ∧
        p.skills = buildSkills svs) ∧
    (pr.ok = false → getRSProfile pr qr = none) ∧
    (jsTruthy (getField pr.body "error") = true → pr.ok = true →
      getRSProfile pr qr = none) := by
  refine ⟨?_, ?_, ?_⟩
  · intro h1 h2 h3 h4
    have hcomp : getRSProfile pr qr = some
        { name := getField pr.body "name"
          combatLevel := getField pr.body "combatlevel"
          totalSkill := getField pr.body "totalskill"
          totalXp := getField pr.body "totalxp"
          questsComplete := getField pr.body "questscomplete"
          questsStarted := getField pr.body "questsstarted"
          questsNotStarted := getField pr.body "questsnotstarted"
          skills := buildSkills svs
          quests := []
          raw := pr.body } := by
      simp only [getRSProfile, h1, h2, h3, h4, Bool.true_eq_false,
        Bool.false_eq_true, if_false]
      rfl
    exact ⟨_, hcomp, rfl, rfl, rfl, rfl, rfl, rfl, rfl, rfl, rfl⟩
  · intro h
    simp [getRSProfile, h]
  · intro h1 h2
    simp [getRSProfile, h1, h2]

/-- C6 witness: the repository's own degradation fixture — an OK stats
response and a non-OK (`Private`) quests response — yields a profile with an
empty quest list and the stats fields populated; a non-OK stats response
yields `null`. -/
theorem C6_profile_degradation_witness :
    (getRSProfile
        { ok := true, statusText := "",
          body := Json.obj
            [("name", Json.str "TestUser"), ("combatlevel", Json.num 138),
             ("skillvalues", Json.arr [Json.obj [("id", Json.num 0), ("level", Json.num 99)]])] }
        { ok := false, statusText := "Private", body := Json.null }).map
      (fun p => (p.quests.length, p.name, p.combatLevel))
      = some (0, Json.str "TestUser", Json.num 138) ∧
    getRSProfile
        { ok := false, statusText := "Server Error", body := Json.null }
        { ok := true, statusText := "", body := Json.obj [("quests", Json.arr [])] }
      = none := by
  constructor
  · obtain ⟨p, hp, hq, hn, hc, -⟩ :=
      (C6_profile_degradation
        { ok := true, statusText := "",
          body := Json.obj
            [("name", Json.str "TestUser"), ("combatlevel", Json.num 138),
             ("skillvalues", Json.arr [Json.obj [("id", Json.num 0), ("level", Json.num 99)]])] }
        { ok := false, statusText := "Private", body := Json.null }
        [Json.obj [("id", Json.num 0), ("level", Json.num 99)]]).1 rfl rfl rfl rfl
    rw [hp]
    simp [hq, hn, hc]
    exact ⟨rfl, rfl⟩
  · exact (C6_profile_degradation
      { ok := false, statusText := "Server Error", body := Json.null }
      { ok := true, statusText := "", body := Json.obj [("quests", Json.arr [])] }
      []).2.1 rfl

/-! Helper lemmas about JavaScript record assignment and the skills fold. -/

theorem lookup_map_overwrite {α : Type} (m : List (String × α)) (k : String) (v : α)
    (hs : (m.lookup k).isSome = true) :
    (m.map (fun kv => if kv.fst = k then (k, v) else kv)).lookup k = some v := by
  induction m with
  | nil => simp at hs
  | cons kv rest ih =>
      rcases kv with ⟨k0, v0⟩
      by_cases h0 : k0 = k
      · subst h0
        simp [List.lookup_cons]
      · have h0b : (k == k0) = false := beq_false_of_ne (fun h => h0 h.symm)
        simp only [List.lookup_cons, h0b] at hs
        simp [List.lookup_cons, h0, h0b, ih hs]

theorem lookup_append_single {α : Type} (m : List (String × α)) (k : String) (v : α)
    (hn : m.lookup k = none) :
    (m ++ [(k, v)]).lookup k = some v := by
  induction m with
  | nil => simp [List.lookup_cons]
  | cons kv rest ih =>
      rcases kv with ⟨k0, v0⟩
      rcases hb : (k == k0) with _ | _
      · simp only [List.lookup_cons, hb] at hn
        simp [List.lookup_cons, hb, ih hn]
      · simp [List.lookup_cons, hb] at hn

theorem lookup_recordAssign_self {α : Type} (m : List (String × α)) (k : String) (v : α) :
    (recordAssign m k v).lookup k = some v := by
  unfold recordAssign
  rcases hs : (m.lookup k) with _ | w
  · simp only [hs, Option.isSome_none, Bool.false_eq_true, if_false]
    exact lookup_append_single m k v hs
  · simp only [hs, Option.isSome_some, if_true]
    exact lookup_map_overwrite m k v (by simp [hs])

theorem lookup_map_overwrite_ne {α : Type} (m : List (String × α)) (k ka : String)
    (v : α) (h : k ≠ ka) :
    (m.map (fun kv => if kv.fst = ka then (ka, v) else kv)).lookup k = m.lookup k := by
  induction m with
  | nil => rfl
  | cons kv rest ih =>
      rcases kv with ⟨k0, v0⟩
      by_cases h0 : k0 = ka
      · subst h0
        simp [List.lookup_cons, beq_false_of_ne h, ih]
      · simp [List.lookup_cons, h0, ih]

theorem lookup_append_single_ne {α : Type} (m : List (String × α)) (k ka : String)
    (v : α) (h : k ≠ ka) :
    (m ++ [(ka, v)]).lookup k = m.lookup k := by
  induction m with
  | nil => simp [List.lookup_cons, beq_false_of_ne h]
  | cons kv rest ih =>
      rcases kv with ⟨k0, v0⟩
      simp [List.lookup_cons, ih]

theorem lookup_recordAssign_ne {α : Type} (m : List (String × α)) (k ka : String) (v : α)
    (h : k ≠ ka) :
    (recordAssign m ka v).lookup k = m.lookup k := by
  unfold recordAssign
  split
  · exact lookup_map_overwrite_ne m k ka v h
  · exact lookup_append_single_ne m k ka v h

/-- The one step of the skills fold in `getRSProfile`. -/
def skillStep (acc : List (String × Json)) (sv : Json) : List (String × Json) :=
  recordAssign acc (skillNameFor sv) (getField sv "level")

theorem buildSkills_eq_foldl (svs : List Json) :
    buildSkills svs = svs.foldl skillStep [] := rfl

theorem lookup_foldl_skillStep_preserved (svs : List Json)
    (acc : List (String × Json)) (k : String)
    (h : (acc.lookup k).isSome = true) :
    ((svs.foldl skillStep acc).lookup k).isSome = true := by
  induction svs generalizing acc with
  | nil => simpa using h
  | cons sv rest ih =>
      simp only [List.foldl_cons]
      apply ih
      by_cases hk : k = skillNameFor sv
      · subst hk
        simp [skillStep, lookup_recordAssign_self]
      · simpa [skillStep, lookup_recordAssign_ne _ _ _ _ hk] using h

theorem lookup_foldl_skillStep_mem (svs : List Json) (acc : List (String × Json))
    (sv : Json) (h : sv ∈ svs) :
    ((svs.foldl skillStep acc).lookup (skillNameFor sv)).isSome = true := by
  induction svs generalizing acc with
  | nil => simp at h
  | cons hd rest ih =>
      simp only [List.foldl_cons]
      rcases List.mem_cons.mp h with h1 | h2
      · subst h1
        apply lookup_foldl_skillStep_preserved
        simp [skillStep, lookup_recordAssign_self]
      · exact ih _ h2

theorem lookup_foldl_skillStep_not_mem (svs : List Json) (acc : List (String × Json))
    (k : String) (h : k ∉ svs.map skillNameFor) :
    (svs.foldl skillStep acc).lookup k = acc.lookup k := by
  induction svs generalizing acc with
  | nil => rfl
  | cons hd rest ih =>
      simp only [List.map_cons, List.mem_cons, not_or] at h
      simp only [List.foldl_cons]
      rw [ih _ h.2, skillStep, lookup_recordAssign_ne _ _ _ _ h.1]

theorem lookup_foldl_skillStep_nodup (svs : List Json) (acc : List (String × Json))
    (sv : Json) (h : sv ∈ svs) (hnd : (svs.map skillNameFor).Nodup) :
    (svs.foldl skillStep acc).lookup (skillNameFor sv)
      = some (getField sv "level") := by
  induction svs generalizing acc with
  | nil => simp at h
  | cons hd rest ih =>
      simp only [List.map_cons, List.nodup_cons] at hnd
      simp only [List.foldl_cons]
      rcases List.mem_cons.mp h with h1 | h2
      · subst h1
        rw [lookup_foldl_skillStep_not_mem rest _ _ hnd.1]
        simp [skillStep, lookup_recordAssign_self]
      · exact ih _ h2 hnd.2

/-- C8: for every skill value row of the stats response, the returned
profile's `skills` record has an entry under the row's derived name — the
fixed table name for an id the 29-entry table covers, the synthetic
`Unknown(<id>)` otherwise — so no row is dropped; when the derived names are
pairwise distinct (as they are for the real endpoint, whose ids are unique),
the entry's value is exactly that row's `level` field.  In particular id 28
maps to `Necromancy` and the unmapped id 99 to `Unknown(99)`. -/
theorem C8_skill_rows (pr qr : JsResponse) (svs : List Json) (p : RSProfile)
    (h1 : pr.ok = true)
    (h2 : jsTruthy (getField pr.body "error") = false)
    (h3 : getField pr.body "skillvalues" = Json.arr svs)
    (hp : getRSProfile pr qr = some p) :
    (∀ sv ∈ svs, ((p.skills.lookup (skillNameFor sv)).isSome) = true) ∧
    ((svs.map skillNameFor).Nodup →
      ∀ sv ∈ svs, p.skills.lookup (skillNameFor sv) = some (getField sv "level")) ∧
    (∀ sv : Json, ∀ n : Int, getField sv "id" = Json.num n →
      SKILL_NAMES.lookup (toString n) = some (skillNameFor sv) ∨
        (SKILL_NAMES.lookup (toString n) = none ∧
          skillNameFor sv = "Unknown(" ++ toString n ++ ")")) ∧
    skillNameFor (Json.obj [("id", Json.num 28)]) = "Necromancy" ∧
    skillNameFor (Json.obj [("id", Json.num 99)]) = "Unknown(99)" := by
  have hskills : p.skills = buildSkills svs := by
    simp only [getRSProfile, h1, h2, h3, Bool.true_eq_false, Bool.false_eq_true,
      if_false] at hp
    split at hp
    · simp only [Option.some.injEq] at hp
      subst hp
      rfl
    · exact absurd hp (by simp)
  refine ⟨?_, ?_, ?_, rfl, rfl⟩
  · intro sv hsv
    rw [hskills, buildSkills_eq_foldl]
    exact lookup_foldl_skillStep_mem svs [] sv hsv
  · intro hnd sv hsv
    rw [hskills, buildSkills_eq_foldl]
    exact lookup_foldl_skillStep_nodup svs [] sv hsv hnd
  · intro sv n hid
    unfold skillNameFor
    rw [hid, show jsStr (Json.num n) = toString n from rfl]
    rcases hl : SKILL_NAMES.lookup (toString n) with _ | name
    · right
      exact ⟨rfl, by simp [hl]⟩
    · left
      simp [hl]

/-- C8 witness: for a stats response with rows id 28 / level 99 and id 99 /
level 1 (and a tolerated non-OK quests response), the profile's skills
record maps `Necromancy` to 99 and `Unknown(99)` to 1. -/
theorem C8_skill_rows_witness :
    (getRSProfile
        { ok := true, statusText := "",
          body := Json.obj
            [("skillvalues", Json.arr
              [Json.obj [("id", Json.num 28), ("level", Json.num 99)],
               Json.obj [("id", Json.num 99), ("level", Json.num 1)]])] }
        { ok := false, statusText := "Private", body := Json.null }).map
      (fun p => (p.skills.lookup "Necromancy", p.skills.lookup "Unknown(99)"))
      = some (some (Json.num 99), some (Json.num 1)) := by
  obtain ⟨p, hp⟩ : ∃ p, getRSProfile
      { ok := true, statusText := "",
        body := Json.obj
          [("skillvalues", Json.arr
            [Json.obj [("id", Json.num 28), ("level", Json.num 99)],
             Json.obj [("id", Json.num 99), ("level", Json.num 1)]])] }
      { ok := false, statusText := "Private", body := Json.null } = some p := ⟨_, rfl⟩
  have h := C8_skill_rows
    { ok := true, statusText := "",
      body := Json.obj
        [("skillvalues", Json.arr
          [Json.obj [("id", Json.num 28), ("level", Json.num 99)],
           Json.obj [("id", Json.num 99), ("level", Json.num 1)]])] }
    { ok := false, statusText := "Private", body := Json.null }
    [Json.obj [("id", Json.num 28), ("level", Json.num 99)],
     Json.obj [("id", Json.num 99), ("level", Json.num 1)]]
    p rfl rfl rfl hp
  have hnd : (([Json.obj [("id", Json.num 28), ("level", Json.num 99)],
      Json.obj [("id", Json.num 99), ("level", Json.num 1)]]).map skillNameFor).Nodup := by
    rw [show ([Json.obj [("id", Json.num 28), ("level", Json.num 99)],
      Json.obj [("id", Json.num 99), ("level", Json.num 1)]]).map skillNameFor
        = ["Necromancy", "Unknown(99)"] from rfl]
    simp
  have h28 := h.2.1 hnd (Json.obj [("id", Json.num 28), ("level", Json.num 99)]) (by simp)
  have h99 := h.2.1 hnd (Json.obj [("id", Json.num 99), ("level", Json.num 1)]) (by simp)
  rw [hp]
  simp only [Option.map_some']
  rw [show skillNameFor (Json.obj [("id", Json.num 28), ("level", Json.num 99)])
      = "Necromancy" from rfl] at h28
  rw [show skillNameFor (Json.obj [("id", Json.num 99), ("level", Json.num 1)])
      = "Unknown(99)" from rfl] at h99
  rw [show getField (Json.obj [("id", Json.num 28), ("level", Json.num 99)]) "level"
      = Json.num 99 from rfl] at h28
  rw [show getField (Json.obj [("id", Json.num 99), ("level", Json.num 1)]) "level"
      = Json.num 1 from rfl] at h99
  rw [h28, h99]

/-! Helper lemmas about the pre-clean phase. -/

theorem cleanNodes_append (a b : List HNode) :
    cleanNodes (a ++ b) = cleanNodes a ++ cleanNodes b := by
  induction a with
  | nil => rfl
  | cons n rest ih => simp [cleanNodes, ih]

mutual

theorem cleanNode_idem (n : HNode) : cleanNodes (cleanNode n) = cleanNode n := by
  cases n with
  | text s => rfl
  | elem tag cls ch =>
      have hsame : isNoiseNode (HNode.elem tag cls (cleanNodes ch))
          = isNoiseNode (HNode.elem tag cls ch) := rfl
      by_cases h : isNoiseNode (HNode.elem tag cls ch) = true
      · simp [cleanNode, h, cleanNodes]
      · simp [cleanNode, cleanNodes, h, hsame, cleanNodes_idem ch]

theorem cleanNodes_idem (ns : List HNode) : cleanNodes (cleanNodes ns) = cleanNodes ns := by
  cases ns with
  | nil => rfl
  | cons n rest =>
      show cleanNodes (cleanNode n ++ cleanNodes rest) = cleanNode n ++ cleanNodes rest
      rw [cleanNodes_append, cleanNode_idem n, cleanNodes_idem rest]

end

theorem noNoiseForest_append (a b : List HNode) :
    noNoiseForest (a ++ b) = (noNoiseForest a && noNoiseForest b) := by
  induction a with
  | nil => rfl
  | cons n rest ih => simp [noNoiseForest, ih, Bool.and_assoc]

mutual

theorem noNoise_cleanNode (n : HNode) : noNoiseForest (cleanNode n) = true := by
  cases n with
  | text s => rfl
  | elem tag cls ch =>
      have hsame : isNoiseNode (HNode.elem tag cls (cleanNodes ch))
          = isNoiseNode (HNode.elem tag cls ch) := rfl
      by_cases h : isNoiseNode (HNode.elem tag cls ch) = true
      · simp [cleanNode, h, noNoiseForest]
      · simp [cleanNode, noNoiseForest, nodeNoNoise, h, hsame, noNoise_cleanNodes ch]

theorem noNoise_cleanNodes (ns : List HNode) : noNoiseForest (cleanNodes ns) = true := by
  cases ns with
  | nil => rfl
  | cons n rest =>
      show noNoiseForest (cleanNode n ++ cleanNodes rest) = true
      rw [noNoiseForest_append, noNoise_cleanNode n, noNoise_cleanNodes rest]
      rfl

end

/-- C2 counterexample: a document whose visible TEXT contains the characters
`<script x` (in raw HTML this is the entity-escaped `&lt;script x`, which
cheerio decodes during parsing).  The parser returns it verbatim as the
summary, so the output value does contain the substring `<script`,
refuting the universally quantified substring claim. -/
theorem C2_counterexample :
    parseWikiContent
        [HNode.elem "div" ["mw-parser-output"]
          [HNode.elem "p" [] [HNode.text "<script x"]]]
      = [("Summary", "<script x")] ∧
    strContainsSub "<script x" "<script" = true := by
  exact ⟨rfl, rfl⟩

/-- C2 amended: the parse result depends only on the pre-cleaned document —
parsing a document and parsing its cleaned form agree — and the cleaned
document is free, at every depth, of `script`, `style` and `noscript`
elements and of elements with class `navbox`, `mw-editsection` or `magnify`.
Hence no text from those removed subtrees ever reaches any output value;
the substrings `<script`/`<style` can appear in an output value only when
the input's own character data (entity-escaped in raw HTML) contains them. -/
theorem C2_noise_removed (ns : List HNode) :
    parseWikiContent ns = parseWikiContent (cleanNodes ns) ∧
    noNoiseForest (cleanNodes ns) = true := by
  constructor
  · unfold parseWikiContent
    rw [cleanNodes_idem]
  · exact noNoise_cleanNodes ns

/-! Helper lemmas about tag occurrence, root selection and the section
fold, used for the summary-only characterisation. -/

theorem forestHasTag_append (t : String) (a b : List HNode) :
    forestHasTag t (a ++ b) = (forestHasTag t a || forestHasTag t b) := by
  induction a with
  | nil => rfl
  | cons n rest ih => simp [forestHasTag, ih, Bool.or_assoc]

mutual

theorem nodeHasTag_cleanNode (t : String) (n : HNode)
    (h : nodeHasTag t n = false) : forestHasTag t (cleanNode n) = false := by
  cases n with
  | text s => rfl
  | elem tag cls ch =>
      simp only [nodeHasTag, Bool.or_eq_false_iff] at h
      by_cases hn : isNoiseNode (HNode.elem tag cls ch) = true
      · simp [cleanNode, hn, forestHasTag]
      · simp [cleanNode, hn, forestHasTag, nodeHasTag, h.1,
          forestHasTag_cleanNodes t ch h.2]

theorem forestHasTag_cleanNodes (t : String) (ns : List HNode)
    (h : forestHasTag t ns = false) : forestHasTag t (cleanNodes ns) = false := by
  cases ns with
  | nil => rfl
  | cons n rest =>
      simp only [forestHasTag, Bool.or_eq_false_iff] at h
      show forestHasTag t (cleanNode n ++ cleanNodes rest) = false
      rw [forestHasTag_append, nodeHasTag_cleanNode t n h.1,
        forestHasTag_cleanNodes t rest h.2]
      rfl

end

mutual

theorem findInNode_hasTag (t : String) (p : String → List String → Bool)
    (n : HNode) (r : HNode) (hr : r ∈ findInNode p n)
    (hn : nodeHasTag t n = false) : nodeHasTag t r = false := by
  cases n with
  | text s => simp [findInNode] at hr
  | elem tag cls ch =>
      simp only [nodeHasTag, Bool.or_eq_false_iff] at hn
      simp only [findInNode, List.mem_append] at hr
      rcases hr with hr | hr
      · have : r = HNode.elem tag cls ch := by
          rcases hp : p tag cls with _ | _
          · rw [hp] at hr; simp at hr
          · rw [hp] at hr; simpa using hr
        rw [this]
        simp [nodeHasTag, hn.1, hn.2]
      · exact findElems_hasTag t p ch r hr hn.2

theorem findElems_hasTag (t : String) (p : String → List String → Bool)
    (ns : List HNode) (r : HNode) (hr : r ∈ findElems p ns)
    (hf : forestHasTag t ns = false) : nodeHasTag t r = false := by
  cases ns with
  | nil => simp [findElems] at hr
  | cons n rest =>
      simp only [forestHasTag, Bool.or_eq_false_iff] at hf
      simp only [findElems, List.mem_append] at hr
      rcases hr with hr | hr
      · exact findInNode_hasTag t p n r hr hf.1
      · exact findElems_hasTag t p rest r hr hf.2

end

theorem forestHasTag_childrenOf (t : String) (n : HNode)
    (h : nodeHasTag t n = false) : forestHasTag t (childrenOf n) = false := by
  cases n with
  | text s => rfl
  | elem tag cls ch =>
      simp only [nodeHasTag, Bool.or_eq_false_iff] at h
      exact h.2

theorem forestHasTag_foldr_children (t : String) (roots : List HNode)
    (h : ∀ r ∈ roots, nodeHasTag t r = false) :
    forestHasTag t (roots.foldr (fun r acc => childrenOf r ++ acc) []) = false := by
  induction roots with
  | nil => rfl
  | cons r rest ih =>
      simp only [List.foldr_cons]
      rw [forestHasTag_append,
        forestHasTag_childrenOf t r (h r (List.mem_cons_self r rest)),
        ih (fun x hx => h x (List.mem_cons_of_mem r hx))]
      rfl

theorem forestHasTag_selectRootChildren (t : String) (ns : List HNode)
    (h : forestHasTag t ns = false) :
    forestHasTag t (selectRootChildren ns) = false := by
  unfold selectRootChildren
  split
  · exact forestHasTag_foldr_children t _
      (fun r hr => findElems_hasTag t _ ns r hr h)
  · exact h

theorem nodeHasTag_of_mem (t : String) (ns : List HNode) (n : HNode)
    (hmem : n ∈ ns) (h : forestHasTag t ns = false) : nodeHasTag t n = false := by
  induction ns with
  | nil => simp at hmem
  | cons k rest ih =>
      simp only [forestHasTag, Bool.or_eq_false_iff] at h
      rcases List.mem_cons.mp hmem with h1 | h2
      · rw [h1]; exact h.1
      · exact ih h2 h.2

theorem isTag_false_of_nodeHasTag (t : String) (n : HNode)
    (h : nodeHasTag t n = false) : isTag t n = false := by
  cases n with
  | text s => rfl
  | elem tag cls ch =>
      simp only [nodeHasTag, Bool.or_eq_false_iff] at h
      simpa [isTag] using h.1

theorem parseStep_no_h2 (st : ParseState) (n : HNode)
    (h : isTag "h2" n = false) :
    (parseStep st n).sections = st.sections ∧
    (parseStep st n).currentSection = st.currentSection := by
  unfold parseStep
  rw [h]
  simp only [Bool.false_eq_true, if_false]
  split
  · exact ⟨rfl, rfl⟩
  · split
    · exact ⟨rfl, rfl⟩
    · exact ⟨rfl, rfl⟩

theorem foldl_parseStep_no_h2 (cs : List HNode) (st : ParseState)
    (h : ∀ n ∈ cs, isTag "h2" n = false) :
    (cs.foldl parseStep st).sections = st.sections ∧
    (cs.foldl parseStep st).currentSection = st.currentSection := by
  induction cs generalizing st with
  | nil => exact ⟨rfl, rfl⟩
  | cons n rest ih =>
      simp only [List.foldl_cons]
      have hstep := parseStep_no_h2 st n (h n (List.mem_cons_self n rest))
      have hrest := ih (parseStep st n) (fun x hx => h x (List.mem_cons_of_mem n hx))
      exact ⟨hrest.1.trans hstep.1, hrest.2.trans hstep.2⟩

theorem mem_recordAssign {α : Type} (m : List (String × α)) (k : String) (v : α)
    (x : String × α) (hx : x ∈ recordAssign m k v) : x ∈ m ∨ x = (k, v) := by
  unfold recordAssign at hx
  split at hx
  · rcases List.mem_map.mp hx with ⟨y, hy, hmap⟩
    by_cases h0 : y.fst = k
    · right
      rw [← hmap]
      simp [h0]
    · left
      rw [← hmap]
      simpa [h0] using hy
  · rcases List.mem_append.mp hx with h | h
    · exact Or.inl h
    · right
      simpa using h

theorem flushSection_values (st : ParseState)
    (hinv : ∀ kv ∈ st.sections, kv.2 ≠ "") :
    ∀ kv ∈ flushSection st, kv.2 ≠ "" := by
  intro kv hkv
  unfold flushSection at hkv
  split at hkv
  · split at hkv
    · rcases mem_recordAssign _ _ _ _ hkv with h | h
      · exact hinv kv h
      · rw [h]
        assumption
    · exact hinv kv hkv
  · exact hinv kv hkv

theorem parseStep_values (st : ParseState) (n : HNode)
    (hinv : ∀ kv ∈ st.sections, kv.2 ≠ "") :
    ∀ kv ∈ (parseStep st n).sections, kv.2 ≠ "" := by
  unfold parseStep
  split
  · exact flushSection_values st hinv
  · split
    · exact hinv
    · split
      · exact hinv
      · exact hinv

theorem foldl_parseStep_values (cs : List HNode) (st : ParseState)
    (hinv : ∀ kv ∈ st.sections, kv.2 ≠ "") :
    ∀ kv ∈ (cs.foldl parseStep st).sections, kv.2 ≠ "" := by
  induction cs generalizing st with
  | nil => exact hinv
  | cons n rest ih =>
      simp only [List.foldl_cons]
      exact ih (parseStep st n) (parseStep_values st n hinv)

/-- C7: for a document containing no `h2` element anywhere, the parse result
is either the empty mapping or a single section named `Summary` with a
non-empty body (the accumulated buffer is dropped exactly when it trims to
nothing); and for every document whatsoever, no section of the result has an
empty value — a section whose buffer trims to empty is omitted. -/
theorem C7_summary_only (ns ms : List HNode)
    (h : forestHasTag "h2" ns = false) :
    (parseWikiContent ns = [] ∨
      ∃ s, s ≠ "" ∧ parseWikiContent ns = [("Summary", s)]) ∧
    (∀ kv ∈ parseWikiContent ms, kv.2 ≠ "") := by
  constructor
  · have hclean := forestHasTag_cleanNodes "h2" ns h
    have hsel := forestHasTag_selectRootChildren "h2" _ hclean
    have hchildren : ∀ n ∈ elemsOnly (selectRootChildren (cleanNodes ns)),
        isTag "h2" n = false := by
      intro n hn
      have hmem : n ∈ selectRootChildren (cleanNodes ns) :=
        (List.mem_filter.mp hn).1
      exact isTag_false_of_nodeHasTag _ _ (nodeHasTag_of_mem _ _ _ hmem hsel)
    have hfold := foldl_parseStep_no_h2
      (elemsOnly (selectRootChildren (cleanNodes ns)))
      { currentSection := "Summary", currentContent := [], sections := [] }
      hchildren
    unfold parseWikiContent flushSection
    split
    · split
      · right
        refine ⟨_, (by assumption), ?_⟩
        rw [hfold.1, hfold.2]
        rfl
      · left
        exact hfold.1
    · left
      exact hfold.1
  · intro kv hkv
    unfold parseWikiContent at hkv
    exact flushSection_values _ (foldl_parseStep_values _ _ (by simp)) kv hkv

/-- C7 witness: a concrete document with only summary content yields exactly
the `Summary` section, and a document with an empty paragraph yields no
empty-valued section. -/
theorem C7_summary_only_witness :
    (parseWikiContent
        [HNode.elem "div" ["mw-parser-output"]
          [HNode.elem "p" [] [HNode.text "Hello"]]] = [] ∨
      ∃ s, s ≠ "" ∧ parseWikiContent
        [HNode.elem "div" ["mw-parser-output"]
          [HNode.elem "p" [] [HNode.text "Hello"]]] = [("Summary", s)]) ∧
    (∀ kv ∈ parseWikiContent
        [HNode.elem "div" ["mw-parser-output"]
          [HNode.elem "p" [] [HNode.text "   "]]], kv.2 ≠ "") := by
  exact C7_summary_only
    [HNode.elem "div" ["mw-parser-output"] [HNode.elem "p" [] [HNode.text "Hello"]]]
    [HNode.elem "div" ["mw-parser-output"] [HNode.elem "p" [] [HNode.text "   "]]]
    rfl

end Loadstone
